import Mathlib

/-!
Shallow embedding of the marshalling/object-lifetime core of `src/lgi.c`
(dynamic Lua ↔ GObject-introspection bridge) and proofs about the claims
of its specification.

Modelling conventions:
* C pointers are the inductive `Addr`.  `Addr.null` is the NULL pointer;
  `Addr.native n` is an address of a native (GLib-side) allocation;
  `Addr.ud id` is the address of the Lua userdata block of wrapper `id`
  (a distinct allocation, hence a distinct constructor); `Addr.inlineData id`
  is the address of the inline `data` buffer of wrapper `id`;
  `Addr.luaStr s` is a non-null `char*` pointing at NUL-terminated
  contents `s`; `Addr.junk` is the value read from an uninitialized
  pointer slot (never NULL, never a cached key).
* A `GArgument` union slot is `GArgVal`; reading a union member other
  than the one that was stored is modelled as the error `Err.badRead`.
* Lua-side effects that release or acquire native resources
  (`g_object_ref/unref`, `g_free`, `g_array_unref`, repo hook calls,
  `g_warning`) are logged in `World.effects`.
* Raised Lua errors (`luaL_error`, `luaL_argerror`, indexing a non-table)
  and C undefined behaviour (null dereference, out-of-bounds or
  uninitialized reads) abort the computation through `Except Err`.
-/

/-- Ownership-transfer mode (`GITransfer`). -/
inductive GITransfer
  | nothing
  | container
  | everything
deriving DecidableEq, Repr

/-- Category of a `GIBaseInfo` (`GIInfoType`).  `otherT` stands for the
remaining members of the C enumeration, which this core treats uniformly. -/
inductive InfoType
  | functionT
  | structT
  | enumT
  | flagsT
  | objectT
  | interfaceT
  | constantT
  | fieldT
  | propertyT
  | otherT
deriving DecidableEq, Repr

/-- Modelled from the spec: the scalar kinds of the per-primitive-type
conversion table.  The table itself lives in `decltype.h`, which is not
under `src/`; per spec §2 the Scalar Codec covers integer widths,
strings and booleans (floating point is outside this embedding). -/
inductive ScalarTag
  | boolean
  | int8
  | uint8
  | int16
  | uint16
  | int32
  | uint32
  | int64
  | uint64
  | gtype
  | utf8
  | filename
deriving DecidableEq, Repr

/-- Pointer values of the model (see the header comment). -/
inductive Addr
  | null
  | native (n : Nat)
  | ud (id : Nat)
  | inlineData (id : Nat)
  | luaStr (s : String)
  | junk
deriving DecidableEq, Repr

/-- Content of one `GArgument` union slot. -/
inductive GArgVal
  | vInt (n : Int)
  | vBool (b : Bool)
  | vPtr (a : Addr)
  | vUninit
deriving DecidableEq, Repr

/-- Reading the `v_pointer` member of the union: defined when the slot
holds a pointer; an uninitialized slot yields the indeterminate non-null
`Addr.junk`; reading a pointer out of an integer/boolean slot is a
union misread (`none`, turned into `Err.badRead` by callers). -/
def GArgVal.asPointer : GArgVal → Option Addr
  | .vPtr a => some a
  | .vUninit => some .junk
  | _ => none

/-- Dynamic (Lua) values.  Tables are association lists from integer
keys to values, in insertion order (only freshly created array tables
are needed by this core). -/
inductive LuaValue
  | nil
  | boolean (b : Bool)
  | integer (n : Int)
  | str (s : String)
  | table (entries : List (Nat × LuaValue))
  | userdata (id : Nat)

/-- Contents of a repo type table's `[0]` metadata sub-table (built by
the Lua side of the package, outside `src/`).  Modelled from the spec:
it records the qualified type name, the GC-visible kind, the gtype and
the optional `acquire`/`dispose` extension hooks. -/
structure RepoMeta where
  name : String
  typ : InfoType
  gtype : Nat
  hasAcquire : Bool
  hasDispose : Bool
deriving DecidableEq, Repr

/-- The `struct ud_compound` userdata payload: native address, ownership
flag, and the repo type table referenced by `ref_repo` (`none` models a
`LUA_REFNIL` reference, which `luaL_ref` returns when the repo lookup
produced nil). -/
structure Compound where
  addr : Addr
  owns : Bool
  meta : Option RepoMeta
deriving DecidableEq, Repr

/-- Introspection metadata of one `GIBaseInfo`. -/
structure BaseInfo where
  ns : String
  name : String
  infoType : InfoType
  /-- storage type of an enum/flags type (`g_enum_info_get_storage_type`) -/
  storageType : ScalarTag
  /-- `g_registered_type_info_get_g_type`; 0 when not registered -/
  gtype : Nat
  /-- `g_struct_info_get_size` -/
  structSize : Nat
deriving DecidableEq, Repr

/-- Kind of a native array container (`GIArrayType`); `otherA` covers
the pointer-array/byte-array kinds the code leaves unhandled. -/
inductive GIArrayType
  | c
  | garray
  | otherA
deriving DecidableEq, Repr

/-- A `GITypeInfo` type descriptor. -/
inductive TypeInfo
  | simple (tag : ScalarTag)
  | array (atype : GIArrayType) (fixedSize : Int) (zeroTerminated : Bool) (elem : TypeInfo)
  | iface (info : BaseInfo)
  /-- unsupported tags (GList, GHashTable, …): marshalling yields zero values -/
  | other
deriving DecidableEq, Repr

/-- Effects on native resources and hooks, logged in program order. -/
inductive Effect
  | objRef (a : Addr)
  | objUnref (a : Addr)
  | gfree (a : Addr)
  | garrayUnref (a : Addr)
  /-- a repo hook (`acquire`, `dispose`, `index`, `newindex`) was called -/
  | hookCall (name : String)
  | warning (msg : String)
deriving DecidableEq, Repr

/-- Aborting outcomes: raised Lua errors and C undefined behaviour. -/
inductive Err
  | luaError (msg : String)
  | argError (pos : Nat) (msg : String)
  | nullDeref
  | badRead
  | nonTermination
deriving DecidableEq, Repr

/-- Mutable state of one Lua/lgi instance: the weak identity cache
(kept as lightuserdata key ↦ wrapper id), the live compound userdata,
the userdata allocator, the `[0]` freelist slot of the typeinfo
ref-registry table (`luaL_ref`/`luaL_unref` keep nil or an integer
there, never a table), and the effect log. -/
structure World where
  cache : List (Addr × Nat)
  wrappers : List (Nat × Compound)
  nextId : Nat
  typeinfoSlot0 : Option Int
  effects : List Effect
deriving DecidableEq, Repr

def World.addEffect (w : World) (e : Effect) : World :=
  { w with effects := w.effects ++ [e] }

/-- A fresh Lua state right after `luaopen_lgi__core`. -/
def World.init : World :=
  { cache := [], wrappers := [], nextId := 0, typeinfoSlot0 := none, effects := [] }

/-- Read-only environment: the repo table (namespace ↦ name ↦ `[0]`
metadata), native array memory, the gtype hierarchy, instance type tags
and the introspection repository used by `lgi_find`. -/
structure MemBlock where
  /-- element stride the backing store was laid out with, in bytes -/
  esize : Nat
  elems : List GArgVal
deriving DecidableEq, Repr

structure GArrayRec where
  len : Nat
  mem : MemBlock
deriving DecidableEq, Repr

structure Env where
  repo : List (String × List (String × RepoMeta))
  cmem : List (Nat × MemBlock)
  gmem : List (Nat × GArrayRec)
  gtypeParent : List (Nat × Nat)
  gtypeName : List (Nat × String)
  instGType : List (Addr × Nat)
  girepo : List (String × Nat)
  infoAt : List (Nat × BaseInfo)
  findMethod : List ((String × String) × Nat)

/-- `lgi_get_cached` (src/lgi.c:86): fetch the cached wrapper for a
lightuserdata key; `none` when absent. -/
def lgi_get_cached (w : World) (obj : Addr) : Option Nat :=
  List.lookup obj w.cache

/-- `lgi_set_cached` (src/lgi.c:105): `rawset` of the value on the stack
top under the lightuserdata key `obj`. -/
def lgi_set_cached (w : World) (obj : Addr) (udId : Nat) : World :=
  { w with cache := (obj, udId) :: w.cache }

/-- Two-level repo lookup `repo[ns][name]` as done in `compound_store`
(src/lgi.c:633-638).  If the namespace table itself is missing,
`lua_getfield` on nil raises; a missing name only yields nil. -/
def repoLookup (env : Env) (ns : String) (name : String) :
    Except Err (Option RepoMeta) :=
  match List.lookup ns env.repo with
  | none => .error (.luaError "attempt to index a nil value")
  | some nsTbl => .ok (List.lookup name nsTbl)

/-- Outcome of `lua_getfield` applied to the `[0]` slot of the typeinfo
ref-registry table.  `luaL_ref`/`luaL_unref` keep this freelist slot at
nil or an integer, so indexing it always raises.  This is what
`compound_callmeta` does when invoked from `compound_store`
(src/lgi.c:661-662): with the stack laid out as
`[ud, reg, type_t, typeinfo_t, type_t]`, `lua_rawgeti(L, -2, 0)` reads
`typeinfo_t[0]` — the ref-registry freelist — and `lua_getfield` on the
result raises. -/
def lua_getfield_freelistSlot (slot : Option Int) : Except Err LuaValue :=
  match slot with
  | none => .error (.luaError "attempt to index a nil value")
  | some _ => .error (.luaError "attempt to index a number value")

/-- `compound_store` (src/lgi.c:600-678).  Returns the updated world,
the pushed Lua values and the (possibly redirected) address.

Faithful points worth noting:
* the NULL check applies only when `transfer ≠ container`;
* the cache lookup key is `*addr`, but the key under which the new
  wrapper is registered is `compound` — the address of the Lua userdata
  block itself (`lgi_set_cached(L, compound)` at src/lgi.c:676);
* for `container` the address is redirected to the inline buffer;
* for `nothing`/object a reference is taken and ownership upgraded;
* for `nothing`/struct the code calls `compound_callmeta("acquire", …)`
  with the typeinfo ref-registry (not the repo type table) sitting
  below the argument, so the metamethod lookup indexes the registry's
  freelist slot and raises (see `lua_getfield_freelistSlot`). -/
def compound_store (env : Env) (w : World) (info : BaseInfo) (addr : Addr)
    (transfer : GITransfer) : Except Err (World × List LuaValue × Addr) :=
  if transfer ≠ .container ∧ addr = .null then
    .ok (w, [.nil], addr)
  else
    match lgi_get_cached w addr with
    | some id => .ok (w, [.userdata id], addr)
    | none => do
      let id := w.nextId
      let meta ← repoLookup env info.ns info.name
      let (w2, addr2, transfer2) ←
        match transfer with
        | .container => .ok (w, Addr.inlineData id, GITransfer.container)
        | .nothing =>
          match info.infoType with
          | .objectT =>
            .ok (w.addEffect (.objRef addr), addr, GITransfer.everything)
          | .structT => do
            let _ ← lua_getfield_freelistSlot w.typeinfoSlot0
            .ok (w, addr, GITransfer.nothing)
          | _ => .ok (w, addr, GITransfer.nothing)
        | .everything => .ok (w, addr, GITransfer.everything)
      let compound : Compound :=
        { addr := addr2, owns := transfer2 = .everything, meta := meta }
      let w3 : World :=
        { w2 with wrappers := (id, compound) :: w2.wrappers, nextId := id + 1 }
      let w4 := lgi_set_cached w3 (Addr.ud id) id
      .ok (w4, [.userdata id], addr2)

/-- `compound_gc` (src/lgi.c:680-716): the `__gc` finalizer of a
compound wrapper.  Only acts when `owns`; structs get their optional
`dispose` hook (via `compound_callmeta`, here with the correct stack
layout), objects one `g_object_unref`, anything else a warning.  The
`luaL_unref` at the end moves the freed ref onto the typeinfo
registry's freelist, making slot `[0]` an integer. -/
def compound_gc (w : World) (udId : Nat) : Except Err World := do
  let compound ←
    match List.lookup udId w.wrappers with
    | none => .error (.argError 1 "lgi.compound expected")
    | some c => .ok c
  let meta ←
    match compound.meta with
    | none => .error (.luaError "assertion failed")
    | some m => .ok m
  let w1 :=
    if compound.owns then
      match meta.typ with
      | .structT => if meta.hasDispose then w.addEffect (.hookCall "dispose") else w
      | .objectT => w.addEffect (.objUnref compound.addr)
      | _ => w.addEffect (.warning "Incorrect type in compound_gc")
    else w
  .ok { w1 with typeinfoSlot0 := some (Int.ofNat udId) }

/-- Modelled from the spec: byte size of each scalar kind on the 64-bit
platform the model fixes (`lgi_type_get_size`, src/lgi.c:117-135, whose
per-tag sizes come from the missing `decltype.h`). -/
def scalarSize : ScalarTag → Nat
  | .boolean => 4
  | .int8 => 1
  | .uint8 => 1
  | .int16 => 2
  | .uint16 => 2
  | .int32 => 4
  | .uint32 => 4
  | .int64 => 8
  | .uint64 => 8
  | .gtype => 8
  | .utf8 => 8
  | .filename => 8

/-- `lgi_type_get_size` (src/lgi.c:117-135): size of a type tag; tags
outside the scalar table fall to the `default:` branch and get size 0. -/
def lgi_type_get_size : TypeInfo → Nat
  | .simple tag => scalarSize tag
  | _ => 0

/-- Reduction of an integer into a signed `w`-bit C integer (the
`(ctype)` cast of `lgi_simple_val_from_lua`). -/
def wrapSigned (w : Nat) (n : Int) : Int :=
  (n + 2 ^ (w - 1)) % 2 ^ w - 2 ^ (w - 1)

/-- Reduction of an integer into an unsigned `w`-bit C integer. -/
def wrapUnsigned (w : Nat) (n : Int) : Int :=
  n % 2 ^ w

/-- Lua 5.1 truthiness (`lua_toboolean`). -/
def lua_toboolean : LuaValue → Bool
  | .nil => false
  | .boolean b => b
  | _ => true

/-- Whether a stack slot is none-or-nil (`lua_isnoneornil`; a position
beyond the stack top is modelled as `LuaValue.nil`, which Lua's
`luaL_check*` macros treat identically). -/
def isNoneOrNil : LuaValue → Bool
  | .nil => true
  | _ => false

/-- Modelled from the spec: `luaL_checkinteger` — accepts numbers (and
numeric strings, per Lua coercion), raises a positional argument error
otherwise. -/
def luaL_checkinteger (v : LuaValue) (pos : Nat) : Except Err Int :=
  match v with
  | .integer n => .ok n
  | .str s =>
    match s.toInt? with
    | some n => .ok n
    | none => .error (.argError pos "number expected")
  | _ => .error (.argError pos "number expected")

/-- Modelled from the spec: `luaL_checkstring` — accepts strings (and
numbers, which Lua coerces), raises a positional argument error
otherwise. -/
def luaL_checkstring (v : LuaValue) (pos : Nat) : Except Err String :=
  match v with
  | .str s => .ok s
  | .integer n => .ok (toString n)
  | _ => .error (.argError pos "string expected")

/-- Modelled from the spec (table in the missing `decltype.h`, driver
loop at src/lgi.c:137-159): `lgi_simple_val_to_lua` — push the dynamic
rendering of one scalar slot and, when `transfer ≠ nothing`, run the
type's destructor (`g_free` for strings, no-op for the rest).
`lua_pushstring(NULL)` pushes nil. -/
def lgi_simple_val_to_lua (w : World) (tag : ScalarTag) (transfer : GITransfer)
    (v : GArgVal) : Except Err (World × List LuaValue) :=
  match tag, v with
  | .boolean, .vBool b => .ok (w, [.boolean b])
  | .int8, .vInt n | .uint8, .vInt n | .int16, .vInt n | .uint16, .vInt n
  | .int32, .vInt n | .uint32, .vInt n | .int64, .vInt n | .uint64, .vInt n
  | .gtype, .vInt n => .ok (w, [.integer n])
  | .utf8, .vPtr a | .filename, .vPtr a =>
    let pushed : Except Err LuaValue :=
      match a with
      | .null => .ok .nil
      | .luaStr s => .ok (.str s)
      | _ => .error .badRead
    match pushed with
    | .error e => .error e
    | .ok lv =>
      let w1 := if transfer ≠ .nothing then w.addEffect (.gfree a) else w
      .ok (w1, [lv])
  | _, _ => .error .badRead

/-- Modelled from the spec (table in the missing `decltype.h`, driver
loop at src/lgi.c:276-297): `lgi_simple_val_from_lua` — fill one scalar
slot from a stack position; with `optional` a missing/nil value maps to
the zero value, otherwise the tag's `check` function (with its C cast)
runs. -/
def lgi_simple_val_from_lua (w : World) (v : LuaValue) (pos : Nat)
    (tag : ScalarTag) (optional : Bool) : Except Err (World × GArgVal) :=
  let omitted := optional && isNoneOrNil v
  match tag with
  | .boolean =>
    .ok (w, .vBool (if omitted then false else lua_toboolean v))
  | .int8 => do
    let n ← if omitted then pure 0 else luaL_checkinteger v pos
    .ok (w, .vInt (wrapSigned 8 n))
  | .uint8 => do
    let n ← if omitted then pure 0 else luaL_checkinteger v pos
    .ok (w, .vInt (wrapUnsigned 8 n))
  | .int16 => do
    let n ← if omitted then pure 0 else luaL_checkinteger v pos
    .ok (w, .vInt (wrapSigned 16 n))
  | .uint16 => do
    let n ← if omitted then pure 0 else luaL_checkinteger v pos
    .ok (w, .vInt (wrapUnsigned 16 n))
  | .int32 => do
    let n ← if omitted then pure 0 else luaL_checkinteger v pos
    .ok (w, .vInt (wrapSigned 32 n))
  | .uint32 => do
    let n ← if omitted then pure 0 else luaL_checkinteger v pos
    .ok (w, .vInt (wrapUnsigned 32 n))
  | .int64 => do
    let n ← if omitted then pure 0 else luaL_checkinteger v pos
    .ok (w, .vInt (wrapSigned 64 n))
  | .uint64 => do
    let n ← if omitted then pure 0 else luaL_checkinteger v pos
    .ok (w, .vInt (wrapUnsigned 64 n))
  | .gtype => do
    let n ← if omitted then pure 0 else luaL_checkinteger v pos
    .ok (w, .vInt (wrapUnsigned 64 n))
  | .utf8 | .filename =>
    if omitted then .ok (w, .vPtr .null)
    else do
      let s ← luaL_checkstring v pos
      .ok (w, .vPtr (.luaStr s))

/-- Value of the `G_TYPE_FUNDAMENTAL_MAX` macro (255 << 2). -/
def G_TYPE_FUNDAMENTAL_MAX : Nat := 1020

/-- Walk up the gtype parent chain looking for `target` (`g_type_is_a`;
interface conformance is not modelled, only derivation). -/
def gTypeIsAWalk (parents : List (Nat × Nat)) : Nat → Nat → Nat → Bool
  | 0, t, target => t == target
  | fuel + 1, t, target =>
    t == target ||
      match List.lookup t parents with
      | some p => gTypeIsAWalk parents fuel p target
      | none => false

/-- `g_type_is_a` over the environment's finite parent relation. -/
def g_type_is_a (env : Env) (t target : Nat) : Bool :=
  gTypeIsAWalk env.gtypeParent env.gtypeParent.length t target

def UD_COMPOUND : String := "lgi.compound"

/-- `compound_load` (src/lgi.c:747-807): check that the Lua value is a
compound wrapper suitable for the requested type `ii` and return its
address.  With `optional`, a non-wrapper value or an ancestry mismatch
yields NULL; otherwise an argument error is raised.  The ancestry check
uses the gtype machinery when the requested type's gtype is derived
(`G_TYPE_IS_DERIVED`), in which case a failed check reports
`g_type_name` of the wrapper's runtime type; otherwise it compares the
wrapper's repo name against `ii`'s qualified name, and a failed check
reports the string on the stack top — the concatenated *requested*
name (src/lgi.c:799). -/
def compound_load (env : Env) (w : World) (v : LuaValue) (index : Nat)
    (ii : BaseInfo) (optional : Bool) : Except Err (World × Addr) := do
  let compound ←
    match v with
    | .userdata id =>
      match List.lookup id w.wrappers with
      | some c => Except.ok (some c)
      | none =>
        if optional then Except.ok none
        else Except.error (Err.argError index (UD_COMPOUND ++ " expected"))
    | _ =>
      if optional then Except.ok none
      else Except.error (Err.argError index (UD_COMPOUND ++ " expected"))
  match compound with
  | none => .ok (w, .null)
  | some c =>
    let t := ii.gtype
    if G_TYPE_FUNDAMENTAL_MAX < t then
      match List.lookup c.addr env.instGType with
      | none => .error .badRead
      | some real =>
        if g_type_is_a env real t then .ok (w, c.addr)
        else if optional then .ok (w, .null)
        else
          match List.lookup real env.gtypeName with
          | some nm => .error (.argError index nm)
          | none => .error .badRead
    else
      match c.meta with
      | none => .error (.luaError "assertion failed")
      | some meta =>
        let requested := ii.ns ++ "." ++ ii.name
        if meta.name = requested then .ok (w, c.addr)
        else if optional then .ok (w, .null)
        else .error (.argError index requested)

/-- Byte-granular read of one `GArgument` at byte offset `off` from a
backing store laid out with stride `esize`.  Out-of-bounds or
misaligned reads are undefined behaviour (`none`). -/
def MemBlock.readAt (m : MemBlock) (off : Nat) : Option GArgVal :=
  if m.esize = 0 then none
  else if off % m.esize = 0 then m.elems.get? (off / m.esize) else none

/-- Backing store of an array value: the C block for `GI_ARRAY_TYPE_C`,
the `data` field of the `GArray` for `GI_ARRAY_TYPE_ARRAY`; the other
array kinds leave `eval` unassigned (src/lgi.c:195-200), modelled as an
unreadable block. -/
def blockOf (env : Env) (atype : GIArrayType) (p : Addr) : Option MemBlock :=
  match atype, p with
  | .c, .native n => List.lookup n env.cmem
  | .garray, .native n => (List.lookup n env.gmem).map GArrayRec.mem
  | _, _ => none

/-- Reading `((GArray*)ptr)->len` (src/lgi.c:176-177).  Dereferencing
NULL is undefined behaviour. -/
def readGArrayLen (env : Env) (p : Addr) : Except Err Nat :=
  match p with
  | .null => .error .nullDeref
  | .native n =>
    match List.lookup n env.gmem with
    | some r => .ok r.len
    | none => .error .badRead
  | _ => .error .badRead

/-- `lua_rawseti(L, -2, k)` on the freshly created array table. -/
def setIdx (t : List (Nat × LuaValue)) (k : Nat) (v : LuaValue) :
    List (Nat × LuaValue) :=
  if t.any (fun p => p.1 == k) then
    t.map (fun p => if p.1 == k then (k, v) else p)
  else t ++ [(k, v)]

/-- Fuel bound for the element loop of `lgi_array_to_lua`: covers every
terminating execution (at most `len` iterations when `len ≥ 0`, and an
out-of-bounds read after at most `|elems| * esize` steps otherwise);
running out of fuel corresponds to the C loop genuinely not
terminating. -/
def arrayLoopFuel (env : Env) (atype : GIArrayType) (p : Addr) (len : Int) : Nat :=
  let m :=
    match blockOf env atype p with
    | some b => b.elems.length * max b.esize 1 + 1
    | none => 1
  max len.toNat m + 2

/-- Element loop of `lgi_array_to_lua` (src/lgi.c:192-210): iterate
while `len < 0 || index < len`; read the element at byte offset
`index * size`; for zero-terminated arrays stop (without storing) at
the first NULL element; store each marshalled element at table index
`index + 1` when the element marshaller produced exactly one value. -/
def arrayLoop (marshal : World → GArgVal → Except Err (World × List LuaValue))
    (read : Nat → Option GArgVal) (zt : Bool) (len : Int) :
    Nat → Nat → World → List (Nat × LuaValue) →
    Except Err (World × List (Nat × LuaValue))
  | 0, idx, w, acc =>
    if len < 0 ∨ (idx : Int) < len then .error .nonTermination else .ok (w, acc)
  | fuel + 1, idx, w, acc =>
    if len < 0 ∨ (idx : Int) < len then
      match read idx with
      | none => .error .badRead
      | some e =>
        if zt then
          match e.asPointer with
          | none => .error .badRead
          | some p =>
            if p = .null then .ok (w, acc)
            else do
              let (w1, vs) ← marshal w e
              let acc1 := match vs with | [v] => setIdx acc (idx + 1) v | _ => acc
              arrayLoop marshal read zt len fuel (idx + 1) w1 acc1
        else do
          let (w1, vs) ← marshal w e
          let acc1 := match vs with | [v] => setIdx acc (idx + 1) v | _ => acc
          arrayLoop marshal read zt len fuel (idx + 1) w1 acc1
    else .ok (w, acc)

/-- Body of `lgi_array_to_lua` (src/lgi.c:164-224), parametrized by the
element marshaller (the C function calls back into `lgi_val_to_lua`).
Faithful ordering: the runtime `len` of a growable array is read
*before* the NULL check (so it overrides any fixed size from the
descriptor, and a NULL growable array dereferences NULL); a NULL
pointer otherwise marshals to nil; the element transfer is downgraded
to `nothing` unless the outer transfer is `everything`; afterwards the
container itself is freed/unreffed when the outer transfer demands. -/
def lgi_array_to_lua_core
    (marshal : World → GITransfer → GArgVal → Except Err (World × List LuaValue))
    (env : Env) (w : World) (atype : GIArrayType) (fixedSize : Int)
    (zt : Bool) (eti : TypeInfo) (transfer : GITransfer) (val : GArgVal) :
    Except Err (World × List LuaValue) := do
  let p ←
    match val.asPointer with
    | some a => Except.ok a
    | none => Except.error Err.badRead
  let size := lgi_type_get_size eti
  let len : Int ←
    if atype = .garray then do
      let l ← readGArrayLen env p
      pure (Int.ofNat l)
    else pure fixedSize
  if p = .null then .ok (w, [.nil])
  else
    let realTransfer := if transfer = .everything then GITransfer.everything
      else GITransfer.nothing
    let read := fun idx =>
      match blockOf env atype p with
      | some b => b.readAt (idx * size)
      | none => none
    let (w1, entries) ← arrayLoop (fun w2 v2 => marshal w2 realTransfer v2) read zt len
      (arrayLoopFuel env atype p len) 0 w []
    let w3 :=
      if transfer ≠ .nothing then
        match atype with
        | .c => w1.addEffect (.gfree p)
        | .garray => w1.addEffect (.garrayUnref p)
        | .otherA => w1
      else w1
    .ok (w3, [.table entries])

/-- Nesting depth of a type descriptor; used as fuel for the (finite)
recursion of `lgi_val_to_lua` into array element types. -/
def tiDepth : TypeInfo → Nat
  | .array _ _ _ e => tiDepth e + 1
  | _ => 1

/-- Fueled form of `lgi_val_to_lua` (src/lgi.c:226-274): scalar tags go
to the scalar codec; interface types dispatch on the referenced info —
enum/flags resolve through their storage type with transfer `nothing`
(src/lgi.c:246-248), struct/object go to `compound_store` with the same
transfer; arrays go to the array marshaller; unrecognized tags yield
zero values. -/
def valToLuaFuel (env : Env) : Nat → World → TypeInfo → GITransfer → GArgVal →
    Except Err (World × List LuaValue)
  | 0, _, _, _, _ => .error .nonTermination
  | fuel + 1, w, ti, transfer, v =>
    match ti with
    | .simple tag => lgi_simple_val_to_lua w tag transfer v
    | .iface ii =>
      match ii.infoType with
      | .enumT | .flagsT => lgi_simple_val_to_lua w ii.storageType .nothing v
      | .structT | .objectT => do
        let p ←
          match v.asPointer with
          | some a => Except.ok a
          | none => Except.error Err.badRead
        let (w1, vs, _) ← compound_store env w ii p transfer
        .ok (w1, vs)
      | _ => .ok (w, [])
    | .array atype fixedSize zt eti =>
      lgi_array_to_lua_core (fun w2 tr v2 => valToLuaFuel env fuel w2 eti tr v2)
        env w atype fixedSize zt eti transfer v
    | .other => .ok (w, [])

/-- `lgi_val_to_lua`: the fuel `tiDepth ti` always suffices, so this is
the function of src/lgi.c:226-274. -/
def lgi_val_to_lua (env : Env) (w : World) (ti : TypeInfo) (transfer : GITransfer)
    (v : GArgVal) : Except Err (World × List LuaValue) :=
  valToLuaFuel env (tiDepth ti) w ti transfer v

/-- `lgi_array_to_lua` (src/lgi.c:164-224) with its callback into
`lgi_val_to_lua` instantiated; identical to what `lgi_val_to_lua`
executes on an array descriptor. -/
def lgi_array_to_lua (env : Env) (w : World) (atype : GIArrayType)
    (fixedSize : Int) (zt : Bool) (eti : TypeInfo) (transfer : GITransfer)
    (val : GArgVal) : Except Err (World × List LuaValue) :=
  lgi_array_to_lua_core (fun w2 tr v2 => lgi_val_to_lua env w2 eti tr v2)
    env w atype fixedSize zt eti transfer val

/-- `lgi_val_from_lua` (src/lgi.c:299-333): returns the filled slot and
the number of Lua stack values consumed.  Scalars and enums go through
the scalar codec; struct/object go through `compound_load`; any other
tag (arrays included — the dynamic-to-native direction is not
implemented) consumes nothing and leaves the slot uninitialized. -/
def lgi_val_from_lua (env : Env) (w : World) (v : LuaValue) (pos : Nat)
    (ti : TypeInfo) (optional : Bool) : Except Err (World × GArgVal × Nat) :=
  match ti with
  | .simple tag => do
    let (w1, g) ← lgi_simple_val_from_lua w v pos tag optional
    .ok (w1, g, 1)
  | .iface ii =>
    match ii.infoType with
    | .enumT | .flagsT => do
      let (w1, g) ← lgi_simple_val_from_lua w v pos ii.storageType optional
      .ok (w1, g, 1)
    | .structT | .objectT => do
      let (w1, a) ← compound_load env w v pos ii optional
      .ok (w1, .vPtr a, 1)
    | _ => .ok (w, .vUninit, 0)
  | _ => .ok (w, .vUninit, 0)

/-- A `GValue` container, already initialized by `value_init`. -/
structure GValueRec where
  content : GArgVal
deriving DecidableEq, Repr

/-- `value_load` (src/lgi.c:395-440): set an initialized `GValue` from a
stack position.  Scalars run the tag's `check`/`val_set` pair; enums and
flags take `luaL_checkinteger`; objects go through `compound_load` and
`g_value_set_object` (which takes its own reference); struct-typed
values raise `"don't know how to handle struct->GValue"`; other
interface kinds and tags yield zero values. -/
def value_load (env : Env) (w : World) (val : GValueRec) (v : LuaValue)
    (narg : Nat) (ti : TypeInfo) : Except Err (World × GValueRec × Nat) :=
  match ti with
  | .simple tag => do
    let (w1, g) ← lgi_simple_val_from_lua w v narg tag false
    .ok (w1, ⟨g⟩, 1)
  | .iface ii =>
    match ii.infoType with
    | .enumT | .flagsT => do
      let n ← luaL_checkinteger v narg
      .ok (w, ⟨.vInt n⟩, 1)
    | .objectT => do
      let (w1, a) ← compound_load env w v narg ii false
      let w2 := if a = .null then w1 else w1.addEffect (.objRef a)
      .ok (w2, ⟨.vPtr a⟩, 1)
    | .structT => .error (.luaError "don't know how to handle struct->GValue")
    | _ => .ok (w, val, 0)
  | _ => .ok (w, val, 0)

/-- `value_store` (src/lgi.c:443-491): push the content of a `GValue`.
Scalars run the tag's `val_get`/`push` pair (no destructor); enums and
flags push their integer; objects are duplicated (`g_value_dup_object`
takes a new reference, NULL stays NULL unreferenced) and stored as an
`everything`-owned compound; struct-typed values raise
`"don't know how to handle GValue->struct"`. -/
def value_store (env : Env) (w : World) (val : GValueRec) (ti : TypeInfo) :
    Except Err (World × List LuaValue) :=
  match ti with
  | .simple tag => lgi_simple_val_to_lua w tag .nothing val.content
  | .iface ii =>
    match ii.infoType with
    | .enumT | .flagsT =>
      match val.content with
      | .vInt n => .ok (w, [.integer n])
      | _ => .error .badRead
    | .objectT => do
      let a ←
        match val.content.asPointer with
        | some a => Except.ok a
        | none => Except.error Err.badRead
      let w1 := if a = .null then w else w.addEffect (.objRef a)
      let (w2, vs, _) ← compound_store env w1 ii a .everything
      .ok (w2, vs)
    | .structT => .error (.luaError "don't know how to handle GValue->struct")
    | _ => .ok (w, [])
  | _ => .ok (w, [])

/-- `lgi_type_new` (src/lgi.c:495-525): instantiate from a descriptor.
Only the struct/object case (inline allocation through `compound_store`
with `container` transfer) is decided by this file; callables are
created by `lgi_callable_create` and constants read through
`g_constant_info_get_value`, both outside `src/`, and no claim depends
on them, so those branches are left yielding zero values. -/
def lgi_type_new (env : Env) (w : World) (ii : BaseInfo) (val : GArgVal) :
    Except Err (World × List LuaValue × GArgVal) :=
  match ii.infoType with
  | .structT | .objectT => do
    let p ←
      match val.asPointer with
      | some a => Except.ok a
      | none => Except.error Err.badRead
    let (w1, vs, a2) ← compound_store env w ii p .container
    .ok (w1, vs, .vPtr a2)
  | _ => .ok (w, [], val)

/-- `lgi_error` (src/lgi.c:59-72): value-level failure result — `false`
alone, or `false`, the message and the numeric code. -/
def lgi_error (w : World) (err : Option (String × Int)) : World × List LuaValue :=
  match err with
  | some (m, c) => (w, [.boolean false, .str m, .integer c])
  | none => (w, [.boolean false])

/-- Direction of one callable argument (`GIDirection`). -/
inductive GIDirection
  | dIn
  | dOut
  | dInout
deriving DecidableEq, Repr

/-- Introspection metadata of one callable argument (`GIArgInfo`). -/
structure ArgInfo where
  dir : GIDirection
  ti : TypeInfo
  isOptional : Bool
  mayBeNull : Bool
  callerAllocates : Bool
  /-- `g_arg_info_get_ownership_transfer` -/
  transfer : GITransfer
deriving DecidableEq, Repr

/-- Introspection metadata of one callable (`GIFunctionInfo` plus its
flags, as read at src/lgi.c:1004-1009). -/
structure FunctionInfo where
  isMethod : Bool
  isConstructor : Bool
  throws : Bool
  args : List ArgInfo
  retTi : TypeInfo
  /-- `g_callable_info_get_caller_owns` -/
  callerOwns : GITransfer
  /-- `g_base_info_get_container`, for the implicit receiver -/
  container : Option BaseInfo
deriving DecidableEq, Repr

/-- Outcome of the opaque low-level call (`ffi_call`,
src/lgi.c:1060-1061): the value written into the return slot, the
per-declared-argument writes into the argument slots (`none` = slot
left untouched), and the optional `GError` (message, code) written
through the trailing error slot. -/
structure NativeOutcome where
  ret : GArgVal
  argWrites : List (Option GArgVal)
  gerror : Option (String × Int)

/-- Reading Lua stack position `pos` (1-based); positions beyond the
top behave as nil for the checks this core performs. -/
def stackGet (stack : List LuaValue) (pos : Nat) : LuaValue :=
  (stack.get? (pos - 1)).getD .nil

/-- Input-marshalling loop of `function_call` (src/lgi.c:1035-1053):
in/inout arguments consume stack values through `lgi_val_from_lua`
(advancing the Lua argument index by the count consumed, with
`optional` when the argument is optional or nullable); out arguments
marked caller-allocated are pre-allocated through `lgi_type_new`
(raising through a NULL interface dereference when the type has no
interface); other out arguments keep uninitialized slots. -/
def function_marshal_in (env : Env) (stack : List LuaValue) :
    List ArgInfo → Nat → World → Except Err (World × List GArgVal)
  | [], _, w => .ok (w, [])
  | ai :: rest, luaArgi, w => do
    let (w1, slot, consumed) ←
      match ai.dir with
      | .dIn | .dInout =>
        lgi_val_from_lua env w (stackGet stack luaArgi) luaArgi ai.ti
          (ai.isOptional || ai.mayBeNull)
      | .dOut =>
        if ai.callerAllocates then
          match ai.ti with
          | .iface ii => do
            let (w1, _, slot) ← lgi_type_new env w ii .vUninit
            Except.ok (w1, slot, 0)
          | _ => Except.error Err.nullDeref
        else Except.ok (w, GArgVal.vUninit, 0)
    let (w2, restSlots) ← function_marshal_in env stack rest (luaArgi + consumed) w1
    .ok (w2, slot :: restSlots)

/-- Output-marshalling loop of `function_call` (src/lgi.c:1079-1087):
each out/inout argument slot (as written by the native call, falling
back to the prepared slot) is marshalled with the argument's declared
ownership transfer; results accumulate in declaration order. -/
def function_marshal_out (env : Env) :
    List ArgInfo → List GArgVal → List (Option GArgVal) → World →
    Except Err (World × List LuaValue)
  | [], _, _, w => .ok (w, [])
  | ai :: rest, slots, writes, w =>
    match ai.dir with
    | .dOut | .dInout => do
      let (w1, vs) ← lgi_val_to_lua env w ai.ti ai.transfer
        ((writes.headD none).getD (slots.headD .vUninit))
      let (w2, restVals) ← function_marshal_out env rest slots.tail writes.tail w1
      .ok (w2, vs ++ restVals)
    | .dIn => function_marshal_out env rest slots.tail writes.tail w

/-- `function_call` (src/lgi.c:988-1090): the generic invoker.  The
implicit receiver (method, non-constructor) is loaded optionally (nil
passes through as NULL); declared arguments are marshalled in; the
opaque native call produces the return slot, argument-slot writes and
possibly a `GError` through the trailing error slot (present only when
the callable throws).  A populated error slot short-circuits into
`lgi_error` — a value-level failure, with no output marshalling;
otherwise the return value is marshalled first (with the callable's
caller-owns rule), then the out/inout arguments in declaration order. -/
def function_call (env : Env) (native : List GArgVal → NativeOutcome) (w : World)
    (f : FunctionInfo) (stack : List LuaValue) :
    Except Err (World × List LuaValue) := do
  let hasSelf := f.isMethod && !f.isConstructor
  let (w1, selfSlot) ←
    if hasSelf then
      match f.container with
      | none => Except.error Err.nullDeref
      | some pi => do
        let (w1, a) ← compound_load env w (stackGet stack 2) 2 pi true
        Except.ok (w1, [GArgVal.vPtr a])
    else Except.ok (w, ([] : List GArgVal))
  let firstArgPos := if hasSelf then 3 else 2
  let (w2, slots) ← function_marshal_in env stack f.args firstArgPos w1
  let outcome := native (selfSlot ++ slots)
  let gerr := if f.throws then outcome.gerror else none
  match gerr with
  | some e => .ok (lgi_error w2 (some e))
  | none => do
    let (w3, retVals) ← lgi_val_to_lua env w2 f.retTi f.callerOwns outcome.ret
    let (w4, outVals) ← function_marshal_out env f.args slots outcome.argWrites w3
    .ok (w4, retVals ++ outVals)

/-- The `GIBaseInfo` describing `GIBaseInfo` itself, fetched once at
module initialization (src/lgi.c:1267-1268); compounds wrapping
introspection descriptors are typed by it. -/
def lgi_baseinfo_info : BaseInfo :=
  { ns := "GIRepository", name := "IBaseInfo", infoType := .structT,
    storageType := .int32, gtype := 0, structSize := 0 }

/-- Symbol resolution of `lgi_find` (src/lgi.c:1110-1136): the
`g_irepository_find_by_name` lookup in the "GIRepository" namespace
followed, when a container is given, by the method lookup on the
container's info (objects, interfaces and structs have method tables;
any other container kind resolves to NULL). -/
def lgi_find_resolve (env : Env) (symbol : String) (container : Option String) :
    Except Err (Option Nat) :=
  let info0 := List.lookup (container.getD symbol) env.girepo
  match container, info0 with
  | some c, some a =>
    match List.lookup a env.infoAt with
    | none => Except.error Err.badRead
    | some inf =>
      Except.ok
        (match inf.infoType with
         | .objectT | .interfaceT | .structT => List.lookup (c, symbol) env.findMethod
         | _ => none)
  | _, _ => Except.ok info0

/-- `lgi_find` (src/lgi.c:1099-1152): resolve a symbol (optionally a
method of a container) in the "GIRepository" namespace.  Failure
returns the two values `false` and a message naming the unresolved
symbol; success wraps the found descriptor as an `everything`-owned
compound of type `lgi_baseinfo_info`. -/
def lgi_find (env : Env) (w : World) (symbol : String) (container : Option String) :
    Except Err (World × List LuaValue) := do
  let info ← lgi_find_resolve env symbol container
  match info with
  | none =>
    .ok (w, [.boolean false,
      .str ("unable to resolve GIRepository." ++
        (match container with | some c => c ++ ":" | none => "") ++ symbol)])
  | some a => do
    let (w1, vs, _) ← compound_store env w lgi_baseinfo_info (.native a) .everything
    .ok (w1, vs)

/-! Concrete fixtures used by the claim theorems. -/

def emptyEnv : Env := ⟨[], [], [], [], [], [], [], [], []⟩

/-- A repo metadata entry for an object type `Ns.T`. -/
def metaT : RepoMeta := ⟨"Ns.T", .objectT, 0, false, false⟩

def infoT : BaseInfo := ⟨"Ns", "T", .objectT, .int32, 0, 0⟩

/-- A repo metadata entry for a struct type `Ns.S` that declares both
an `acquire` and a `dispose` hook. -/
def metaS : RepoMeta := ⟨"Ns.S", .structT, 0, true, true⟩

def infoS : BaseInfo := ⟨"Ns", "S", .structT, .int32, 0, 16⟩

def envNs : Env := { emptyEnv with repo := [("Ns", [("T", metaT), ("S", metaS)])] }

/-- Two consecutive `compound_store` calls for the same native address
starting from a fresh state; returns the final world and both pushed
value lists. -/
def c1_run : Except Err (World × List LuaValue × List LuaValue) := do
  let (w1, vs1, _) ← compound_store envNs World.init infoT (.native 5) .everything
  let (w2, vs2, _) ← compound_store envNs w1 infoT (.native 5) .everything
  .ok (w2, vs1, vs2)

/-- Store a fresh wrapper and finalize it; returns the wrapper's `owns`
flag and the logged native-resource effects. -/
def c4_run (info : BaseInfo) (t : GITransfer) : Except Err (Bool × List Effect) := do
  let (w1, _, _) ← compound_store envNs World.init info (.native 8) t
  let owns := match List.lookup 0 w1.wrappers with | some c => c.owns | none => false
  let w2 ← compound_gc w1 0
  .ok (owns, w2.effects)

/-- A growable array at native address 20 whose runtime length field is
1 while its backing store holds two int32 elements. -/
def envC6 : Env := { emptyEnv with gmem := [(20, ⟨1, ⟨4, [.vInt 7, .vInt 8]⟩⟩)] }

/-- A growable array at native address 1: runtime length 2, backing
store of three int32 elements. -/
def envC6w : Env := { emptyEnv with gmem := [(1, ⟨2, ⟨4, [.vInt 5, .vInt 6, .vInt 9]⟩⟩)] }

/-- A zero-terminated C array of strings at native address 30 backed by
`[v0, v1, NULL, v3]`. -/
def envC7 : Env := { emptyEnv with
  cmem := [(30, ⟨8, [.vPtr (.luaStr "v0"), .vPtr (.luaStr "v1"), .vPtr .null,
                     .vPtr (.luaStr "v3")]⟩)] }

/-- A callable of signature `(in: int32, out: int32) -> boolean` that
can throw; not a method. -/
def f2 : FunctionInfo :=
  { isMethod := false, isConstructor := false, throws := true,
    args := [⟨.dIn, .simple .int32, false, false, false, .nothing⟩,
             ⟨.dOut, .simple .int32, false, false, false, .nothing⟩],
    retTi := .simple .boolean, callerOwns := .nothing, container := none }

/-- Native behaviour: success returning true, writing 10 into the out
slot, no error. -/
def nativeOk : List GArgVal → NativeOutcome :=
  fun _ => ⟨.vBool true, [none, some (.vInt 10)], none⟩

/-- Native behaviour: failure populating the error slot with message
"bad" and code 7, leaving return and out slots untouched. -/
def nativeBad : List GArgVal → NativeOutcome :=
  fun _ => ⟨.vUninit, [none, none], some ("bad", 7)⟩

/-- A live wrapper bound to type `A.T` (no registered gtype). -/
def compAT : Compound := ⟨.native 9, false, some ⟨"A.T", .structT, 0, false, false⟩⟩

def wC5 : World := { World.init with wrappers := [(0, compAT)] }

/-- A requested type `A.B` with no registered gtype. -/
def iiB : BaseInfo := ⟨"A", "B", .structT, .int32, 0, 0⟩

/-- A requested type `A.D` with derived gtype 1500. -/
def iiD : BaseInfo := ⟨"A", "D", .objectT, .int32, 1500, 0⟩

/-- A live wrapper whose instance (native address 9) carries runtime
gtype 2000, a child of 1500. -/
def compD : Compound := ⟨.native 9, false, some ⟨"A.D", .objectT, 1500, false, false⟩⟩

def wC5d : World := { World.init with wrappers := [(0, compD)] }

def envC5d : Env := { emptyEnv with
  instGType := [(.native 9, 2000)],
  gtypeParent := [(2000, 1500)],
  gtypeName := [(2000, "RealT")] }

/-- An enum type with int32 storage. -/
def iiE : BaseInfo := ⟨"Ns", "E", .enumT, .int32, 0, 0⟩

def metaBI : RepoMeta := ⟨"GIRepository.IBaseInfo", .structT, 0, false, false⟩

/-- Environment whose repo knows `GIRepository.IBaseInfo` but whose
introspection repository is empty. -/
def envBI : Env := { emptyEnv with repo := [("GIRepository", [("IBaseInfo", metaBI)])] }

/-! Claim theorems. -/

/-- C1: refuted by the code (code bug).  The identity cache is read
with the native address as key, but `compound_store` registers each new
wrapper under the address of the wrapper userdata itself
(`lgi_set_cached(L, compound)`, src/lgi.c:676, instead of
`compound->addr`).  Hence a second `compound_store` for the same
non-null native address with `transfer ≠ container` and no intervening
collection misses the cache and creates a second wrapper: the two calls
return distinct wrappers, two live wrappers satisfy
`wrapper.address == a`, and the cache holds only userdata-address
keys. -/
theorem c1_identity_cache_bug :
    c1_run.map (fun r => (r.2.1, r.2.2)) = .ok ([.userdata 0], [.userdata 1]) ∧
    c1_run.map (fun r =>
      (r.1.wrappers.filter (fun p => p.2.addr == Addr.native 5)).length) = .ok 2 ∧
    c1_run.map (fun r => r.1.cache) = .ok [(.ud 1, 1), (.ud 0, 0)] :=
  ⟨rfl, rfl, rfl⟩

/-- C2: confirmed.  Invoking the callable `(in: int32, out: int32) →
boolean, throws` with input 5: a native success writing return `true`
and output 10 yields exactly the two results `[true, 10]` (return value
first); a native failure populating the error slot with message "bad"
and code 7 yields the value-level failure result `(false, "bad", 7)`
without raising and without any output marshalling (marshalling the
untouched return/out slots would abort, yet the call succeeds). -/
theorem c2_call_result_shape :
    function_call emptyEnv nativeOk World.init f2 [.nil, .integer 5] =
      .ok (World.init, [.boolean true, .integer 10]) ∧
    function_call emptyEnv nativeBad World.init f2 [.nil, .integer 5] =
      .ok (World.init, [.boolean false, .str "bad", .integer 7]) :=
  ⟨rfl, rfl⟩

/-- C3: refuted by the code (code bug).  A null compound address with
`transfer ≠ container` does marshal to nil, and so does a null C-kind
array; but for a growable-array (`GI_ARRAY_TYPE_ARRAY`) descriptor the
code dereferences `((GArray*)val->v_pointer)->len` (src/lgi.c:176-177)
*before* the NULL check of src/lgi.c:179, so a null growable array is a
null-pointer dereference instead of the claimed nil. -/
theorem c3_null_roundtrip_bug :
    lgi_array_to_lua emptyEnv World.init .garray (-1) false (.simple .int32)
      .nothing (.vPtr .null) = .error .nullDeref ∧
    lgi_array_to_lua emptyEnv World.init .c (-1) false (.simple .int32)
      .nothing (.vPtr .null) = .ok (World.init, [.nil]) ∧
    compound_store envNs World.init infoT .null .everything =
      .ok (World.init, [.nil], .null) ∧
    compound_store envNs World.init infoT .null .nothing =
      .ok (World.init, [.nil], .null) :=
  ⟨rfl, rfl, rfl, rfl⟩

/-- C4: refuted by the code (code bug).  The object half of the claim
holds: `transfer = none` on an object refs it, upgrades to owning, and
finalization unrefs exactly once; `transfer = everything` releases
exactly once (object unref, struct `dispose` hook).  But the struct
half fails: `compound_store` on a struct with `transfer = none` never
consults the `acquire` hook — it raises, because `compound_callmeta` is
entered with the typeinfo ref-registry (not the repo type table) below
the argument (src/lgi.c:661-662), so the hook lookup indexes the
registry's `[0]` freelist slot, which is nil or a number. -/
theorem c4_ownership_bug :
    compound_store envNs World.init infoS (.native 7) .nothing =
      .error (.luaError "attempt to index a nil value") ∧
    c4_run infoT .nothing = .ok (true, [.objRef (.native 8), .objUnref (.native 8)]) ∧
    c4_run infoS .everything = .ok (true, [.hookCall "dispose"]) ∧
    c4_run infoT .everything = .ok (true, [.objUnref (.native 8)]) :=
  ⟨rfl, rfl, rfl, rfl⟩

/-- C5 counterexample: the claim says a mismatch raises an argument
error naming the *actual* type, but in the name-comparison branch
(requested type without a derived gtype) `compound_load` reports the
stack top — the concatenated *requested* qualified name
(src/lgi.c:799).  Loading a wrapper of actual type `A.T` while
requesting `A.B` raises `argError` with message "A.B", not "A.T". -/
theorem c5_mismatch_names_requested_type :
    compound_load emptyEnv wC5 (.userdata 0) 1 iiB false =
      .error (.argError 1 "A.B") ∧
    ((List.lookup 0 wC5.wrappers).bind Compound.meta).map RepoMeta.name =
      some "A.T" ∧
    "A.B" ≠ "A.T" :=
  ⟨rfl, rfl, by decide⟩

/-- C6 counterexample: the claim gives the descriptor's fixed size
priority over the runtime length field, but for a growable-array
container the code overwrites the fixed size with the runtime `len`
(src/lgi.c:176-177).  With fixed size 2 on the descriptor and runtime
length 1, exactly one element is marshalled. -/
theorem c6_fixed_size_not_prioritized :
    (List.lookup 20 envC6.gmem).map GArrayRec.len = some 1 ∧
    lgi_array_to_lua envC6 World.init .garray 2 false (.simple .int32) .nothing
      (.vPtr (.native 20)) = .ok (World.init, [.table [(1, .integer 7)]]) :=
  ⟨rfl, rfl⟩

/-- C7: confirmed.  Marshalling a zero-terminated array backed by
`[v0, v1, NULL, v3]` yields exactly the two elements `[v0, v1]`: the
scan stops at the first NULL element, which is not included. -/
theorem c7_zero_terminated_truncation :
    lgi_array_to_lua envC7 World.init .c (-1) true (.simple .utf8) .nothing
      (.vPtr (.native 30)) =
      .ok (World.init, [.table [(1, .str "v0"), (2, .str "v1")]]) :=
  rfl

/-- C8: confirmed.  Both directions of the generic-value codec reject
struct-typed values with a raised descriptive error: `value_load`
raises "don't know how to handle struct->GValue" (src/lgi.c:426) and
`value_store` raises "don't know how to handle GValue->struct"
(src/lgi.c:477), for every environment, world, value and stack
position. -/
theorem c8_struct_gvalue_rejected (env : Env) (w : World) (val : GValueRec)
    (v : LuaValue) (narg : Nat) (ii : BaseInfo) (h : ii.infoType = .structT) :
    value_load env w val v narg (.iface ii) =
      .error (.luaError "don't know how to handle struct->GValue") ∧
    value_store env w val (.iface ii) =
      .error (.luaError "don't know how to handle GValue->struct") := by
  constructor
  · simp [value_load, h]
  · simp [value_store, h]

/-- Witness for C8 at the concrete struct type `Ns.S`. -/
theorem c8_struct_gvalue_rejected_witness :
    value_load emptyEnv World.init ⟨.vUninit⟩ .nil 1 (.iface infoS) =
      .error (.luaError "don't know how to handle struct->GValue") ∧
    value_store emptyEnv World.init ⟨.vUninit⟩ (.iface infoS) =
      .error (.luaError "don't know how to handle GValue->struct") :=
  c8_struct_gvalue_rejected emptyEnv World.init ⟨.vUninit⟩ .nil 1 infoS rfl

/-- Scalar marshalling with transfer `nothing` never changes the world
(no destructor runs, nothing is logged). -/
theorem lgi_simple_val_to_lua_nothing_world (w : World) (tag : ScalarTag)
    (v : GArgVal) (w' : World) (vs : List LuaValue)
    (h : lgi_simple_val_to_lua w tag .nothing v = .ok (w', vs)) : w' = w := by
  cases tag <;> cases v <;> simp_all [lgi_simple_val_to_lua] <;>
    (rename_i a; cases a <;> simp_all)

/-- C9: confirmed.  The enum/flags branch of `lgi_val_to_lua` forwards
transfer `nothing` to the scalar codec (src/lgi.c:246-248), so
converting an enum or flags value to the dynamic side leaves the world
— in particular the native-resource effect log — unchanged, whatever
the outer transfer mode was. -/
theorem c9_enum_no_release (env : Env) (w : World) (ii : BaseInfo)
    (transfer : GITransfer) (v : GArgVal) (w' : World) (vs : List LuaValue)
    (h : ii.infoType = .enumT ∨ ii.infoType = .flagsT)
    (hrun : lgi_val_to_lua env w (.iface ii) transfer v = .ok (w', vs)) :
    w'.effects = w.effects := by
  obtain ⟨ns, nm, ity, st, gt, ss⟩ := ii
  have hw : w' = w := by
    rcases h with h | h <;> simp only [BaseInfo.infoType] at h <;> subst h <;>
      exact lgi_simple_val_to_lua_nothing_world w st v w' vs hrun
  rw [hw]

/-- Witness for C9: converting enum value 3 with outer transfer
`everything` changes nothing. -/
theorem c9_enum_no_release_witness :
    lgi_val_to_lua emptyEnv World.init (.iface iiE) .everything (.vInt 3) =
      .ok (World.init, [.integer 3]) ∧
    World.init.effects = World.init.effects :=
  ⟨rfl, c9_enum_no_release emptyEnv World.init iiE .everything (.vInt 3)
    World.init [.integer 3] (Or.inl rfl) rfl⟩

/-- When the address is non-null and the namespace is present in the
repo, `compound_store` with transfer `everything` always succeeds and
pushes exactly one compound wrapper. -/
theorem compound_store_everything_ok (env : Env) (w : World) (info : BaseInfo)
    (a : Addr) (nsTbl : List (String × RepoMeta))
    (ha : a ≠ .null) (hns : List.lookup info.ns env.repo = some nsTbl) :
    ∃ w' id a', compound_store env w info a .everything =
      .ok (w', [.userdata id], a') := by
  have hcond : ¬ (GITransfer.everything ≠ GITransfer.container ∧ a = Addr.null) := by
    simp [ha]
  cases hcache : lgi_get_cached w a with
  | some id =>
    refine ⟨w, id, a, ?_⟩
    unfold compound_store
    rw [if_neg hcond, hcache]
  | none =>
    refine ⟨{ cache := (Addr.ud w.nextId, w.nextId) :: w.cache,
              wrappers := (w.nextId,
                { addr := a, owns := true, meta := List.lookup info.name nsTbl }) :: w.wrappers,
              nextId := w.nextId + 1,
              typeinfoSlot0 := w.typeinfoSlot0,
              effects := w.effects }, w.nextId, a, ?_⟩
    unfold compound_store
    rw [if_neg hcond, hcache]
    unfold repoLookup
    rw [hns]
    rfl

/-- C10: confirmed.  When the symbol (or the container's method) cannot
be resolved, `lgi_find` returns exactly the two values `false` and the
message naming `GIRepository`, the container (when given) and the
symbol, without raising; when resolution succeeds it returns exactly
one descriptor wrapper. -/
theorem c10_find_result_shape (env : Env) (w : World) (symbol : String)
    (container : Option String) (nsTbl : List (String × RepoMeta))
    (hns : List.lookup "GIRepository" env.repo = some nsTbl) :
    (lgi_find_resolve env symbol container = .ok none →
      lgi_find env w symbol container = .ok (w, [.boolean false,
        .str ("unable to resolve GIRepository." ++
          (match container with | some c => c ++ ":" | none => "") ++ symbol)])) ∧
    (∀ a, lgi_find_resolve env symbol container = .ok (some a) →
      ∃ w' id, lgi_find env w symbol container = .ok (w', [.userdata id])) := by
  constructor
  · intro hres
    unfold lgi_find
    rw [hres]
    rfl
  · intro a hres
    obtain ⟨w', id, a', hstore⟩ :=
      compound_store_everything_ok env w lgi_baseinfo_info (.native a) nsTbl
        (by simp) hns
    refine ⟨w', id, ?_⟩
    unfold lgi_find
    rw [hres]
    show (do
      let r ← compound_store env w lgi_baseinfo_info (Addr.native a) GITransfer.everything
      Except.ok (r.1, r.2.1) : Except Err (World × List LuaValue)) = _
    rw [hstore]
    rfl

/-- Witness for C10: resolving the unknown symbol "Nope" yields the
two-value failure result with the message naming it. -/
theorem c10_find_result_shape_witness :
    lgi_find envBI World.init "Nope" none = .ok (World.init,
      [.boolean false, .str "unable to resolve GIRepository.Nope"]) :=
  (c10_find_result_shape envBI World.init "Nope" none
    [("IBaseInfo", metaBI)] rfl).1 rfl

/-- Reduction of a monadic bind on an `Except.ok` value. -/
theorem exceptBind_ok {ε α β : Type} (a : α) (f : α → Except ε β) :
    (Except.ok a : Except ε α) >>= f = f a := rfl

/-- Reduction of a monadic bind on a pure `Except` value. -/
theorem exceptBind_pure {ε α β : Type} (a : α) (f : α → Except ε β) :
    (pure a : Except ε α) >>= f = f a := rfl

/-- C5 amended: `compound_load` succeeds with the wrapper's address when
the ancestry check passes (gtype derivation for a requested type with a
derived registered gtype, repo-name equality otherwise); a mismatch
with `optional` yields null; a mismatch without `optional` raises a
positional argument error whose message is the wrapper's *actual*
runtime type name in the gtype branch but the *requested* qualified
name in the name-comparison branch. -/
theorem c5_ancestry_check_amended (env : Env) (w : World) (udId index : Nat)
    (c : Compound) (ii : BaseInfo) (optional : Bool)
    (hc : List.lookup udId w.wrappers = some c) :
    (G_TYPE_FUNDAMENTAL_MAX < ii.gtype →
      ∀ real, List.lookup c.addr env.instGType = some real →
        (g_type_is_a env real ii.gtype = true →
          compound_load env w (.userdata udId) index ii optional = .ok (w, c.addr)) ∧
        (g_type_is_a env real ii.gtype = false →
          (optional = true →
            compound_load env w (.userdata udId) index ii optional = .ok (w, .null)) ∧
          (optional = false → ∀ nm, List.lookup real env.gtypeName = some nm →
            compound_load env w (.userdata udId) index ii optional =
              .error (.argError index nm)))) ∧
    (¬ G_TYPE_FUNDAMENTAL_MAX < ii.gtype →
      ∀ m, c.meta = some m →
        (m.name = ii.ns ++ "." ++ ii.name →
          compound_load env w (.userdata udId) index ii optional = .ok (w, c.addr)) ∧
        (m.name ≠ ii.ns ++ "." ++ ii.name →
          (optional = true →
            compound_load env w (.userdata udId) index ii optional = .ok (w, .null)) ∧
          (optional = false →
            compound_load env w (.userdata udId) index ii optional =
              .error (.argError index (ii.ns ++ "." ++ ii.name))))) := by
  constructor
  · intro hgt real hreal
    constructor
    · intro hisa
      simp [compound_load, hc, exceptBind_ok, hgt, hreal, hisa]
    · intro hisa
      constructor
      · intro hopt
        simp [compound_load, hc, exceptBind_ok, hgt, hreal, hisa, hopt]
      · intro hopt nm hnm
        simp [compound_load, hc, exceptBind_ok, hgt, hreal, hisa, hopt, hnm]
  · intro hgt m hm
    constructor
    · intro hname
      simp [compound_load, hc, exceptBind_ok, hgt, hm, hname]
    · intro hname
      constructor
      · intro hopt
        simp [compound_load, hc, exceptBind_ok, hgt, hm, hname, hopt]
      · intro hopt
        simp [compound_load, hc, exceptBind_ok, hgt, hm, hname, hopt]

/-- Witness for C5 amended: loading a wrapper whose runtime gtype 2000
derives from the requested derived gtype 1500 succeeds with the
wrapper's address. -/
theorem c5_ancestry_check_amended_witness :
    compound_load envC5d wC5d (.userdata 0) 1 iiD false = .ok (wC5d, .native 9) :=
  ((c5_ancestry_check_amended envC5d wC5d 0 1 compD iiD false rfl).1
    (by decide) 2000 rfl).1 rfl

/-- `lua_rawseti` on a table whose keys are all smaller than `k`
appends the new entry. -/
theorem setIdx_of_lt (t : List (Nat × LuaValue)) (k : Nat) (v : LuaValue)
    (h : ∀ p ∈ t, p.1 < k) : setIdx t k v = t ++ [(k, v)] := by
  unfold setIdx
  rw [if_neg]
  simp only [List.any_eq_true, beq_iff_eq, not_exists, not_and]
  intro p hp
  exact Nat.ne_of_lt (h p hp)

/-- The element loop of `lgi_array_to_lua` without zero-termination:
when the length is the non-negative `idx + n`, every remaining element
reads back and marshals to exactly one value without touching the
world, and the accumulated table has only smaller keys, the loop
appends exactly the `n` marshalled elements at indices `idx+1 …
idx+n`. -/
theorem arrayLoop_count
    (marshal : World → GArgVal → Except Err (World × List LuaValue))
    (read : Nat → Option GArgVal) (out : Nat → LuaValue) :
    ∀ (n idx fuel : Nat) (w : World) (acc : List (Nat × LuaValue)),
      n ≤ fuel →
      (∀ j, idx ≤ j → j < idx + n → ∃ e, read j = some e ∧
        ∀ w0, marshal w0 e = .ok (w0, [out j])) →
      (∀ p ∈ acc, p.1 < idx + 1) →
      arrayLoop marshal read false (Int.ofNat (idx + n)) fuel idx w acc =
        .ok (w, acc ++ (List.range n).map (fun k => (idx + k + 1, out (idx + k)))) := by
  intro n
  induction n with
  | zero =>
    intro idx fuel w acc _ _ _
    have hcond : ¬ (Int.ofNat (idx + 0) < 0 ∨ (idx : Int) < Int.ofNat (idx + 0)) := by
      simp
    cases fuel <;> simp [arrayLoop, hcond]
  | succ n ih =>
    intro idx fuel w acc hfuel hread hacc
    obtain ⟨fuel, rfl⟩ : ∃ f, fuel = f + 1 := ⟨fuel - 1, by omega⟩
    have hlt : idx < idx + (n + 1) := by omega
    have hcond : (Int.ofNat (idx + (n + 1)) < 0 ∨ (idx : Int) < Int.ofNat (idx + (n + 1))) := by
      right
      exact Int.ofNat_lt.mpr hlt
    obtain ⟨e, hre, hme⟩ := hread idx (le_refl idx) (by omega)
    have hstep : arrayLoop marshal read false (Int.ofNat (idx + (n + 1))) (fuel + 1) idx w acc =
        arrayLoop marshal read false (Int.ofNat (idx + (n + 1))) fuel (idx + 1) w
          (setIdx acc (idx + 1) (out idx)) := by
      rw [arrayLoop, if_pos hcond]
      simp [hre, hme w, exceptBind_ok]
    rw [hstep, setIdx_of_lt acc (idx + 1) (out idx) hacc]
    have hrec := ih (idx + 1) fuel w (acc ++ [(idx + 1, out idx)]) (by omega)
      (fun j h1 h2 => hread j (by omega) (by omega))
      (by
        intro p hp
        rcases List.mem_append.1 hp with h | h
        · exact Nat.lt_succ_of_lt (hacc p h)
        · rw [List.mem_singleton] at h
          subst h
          exact Nat.lt_succ_self _)
    rw [show idx + 1 + n = idx + (n + 1) from by omega] at hrec
    rw [hrec]
    have hlist : (acc ++ [(idx + 1, out idx)]) ++
        (List.range n).map (fun k => (idx + 1 + k + 1, out (idx + 1 + k))) =
        acc ++ (List.range (n + 1)).map (fun k => (idx + k + 1, out (idx + k))) := by
      rw [List.append_assoc, List.range_succ_eq_map, List.map_cons, List.map_map]
      simp only [Nat.add_zero, List.singleton_append]
      refine congrArg (fun l => acc ++ l) (congrArg (List.cons _) ?_)
      apply List.map_congr_left
      intro k _
      simp only [Function.comp_apply]
      rw [show idx + 1 + k = idx + (k + 1) from by omega]
    rw [hlist]

/-- The element loop of `lgi_array_to_lua` with zero-termination and a
negative length: the first `k` elements are non-null pointers that
marshal to one value each, element `idx + k` is the NULL terminator,
so the loop appends exactly the `k` marshalled elements and stops. -/
theorem arrayLoop_zt_scan
    (marshal : World → GArgVal → Except Err (World × List LuaValue))
    (read : Nat → Option GArgVal) (len : Int) (out : Nat → LuaValue)
    (hlen : len < 0) :
    ∀ (k idx fuel : Nat) (w : World) (acc : List (Nat × LuaValue)),
      k < fuel →
      (∀ j, idx ≤ j → j < idx + k → ∃ a, read j = some (.vPtr a) ∧ a ≠ .null ∧
        ∀ w0, marshal w0 (.vPtr a) = .ok (w0, [out j])) →
      read (idx + k) = some (.vPtr .null) →
      (∀ p ∈ acc, p.1 < idx + 1) →
      arrayLoop marshal read true len fuel idx w acc =
        .ok (w, acc ++ (List.range k).map (fun j => (idx + j + 1, out (idx + j)))) := by
  intro k
  induction k with
  | zero =>
    intro idx fuel w acc hfuel hread hnull _
    obtain ⟨fuel, rfl⟩ : ∃ f, fuel = f + 1 := ⟨fuel - 1, by omega⟩
    rw [arrayLoop, if_pos (Or.inl hlen)]
    rw [show idx + 0 = idx from rfl] at hnull
    simp [hnull, GArgVal.asPointer]
  | succ k ih =>
    intro idx fuel w acc hfuel hread hnull hacc
    obtain ⟨fuel, rfl⟩ : ∃ f, fuel = f + 1 := ⟨fuel - 1, by omega⟩
    obtain ⟨a, hra, hanull, hma⟩ := hread idx (le_refl idx) (by omega)
    have hstep : arrayLoop marshal read true len (fuel + 1) idx w acc =
        arrayLoop marshal read true len fuel (idx + 1) w
          (setIdx acc (idx + 1) (out idx)) := by
      rw [arrayLoop, if_pos (Or.inl hlen)]
      simp [hra, GArgVal.asPointer, hanull, hma w, exceptBind_ok]
    rw [hstep, setIdx_of_lt acc (idx + 1) (out idx) hacc]
    have hrec := ih (idx + 1) fuel w (acc ++ [(idx + 1, out idx)]) (by omega)
      (fun j h1 h2 => hread j (by omega) (by omega))
      (by rw [show idx + 1 + k = idx + (k + 1) from by omega]; exact hnull)
      (by
        intro p hp
        rcases List.mem_append.1 hp with h | h
        · exact Nat.lt_succ_of_lt (hacc p h)
        · rw [List.mem_singleton] at h
          subst h
          exact Nat.lt_succ_self _)
    rw [hrec]
    have hlist : (acc ++ [(idx + 1, out idx)]) ++
        (List.range k).map (fun j => (idx + 1 + j + 1, out (idx + 1 + j))) =
        acc ++ (List.range (k + 1)).map (fun j => (idx + j + 1, out (idx + j))) := by
      rw [List.append_assoc, List.range_succ_eq_map, List.map_cons, List.map_map]
      simp only [Nat.add_zero, List.singleton_append]
      refine congrArg (fun l => acc ++ l) (congrArg (List.cons _) ?_)
      apply List.map_congr_left
      intro j _
      simp only [Function.comp_apply]
      rw [show idx + 1 + j = idx + (j + 1) from by omega]
    rw [hlist]

/-- C6 amended: the element count of a marshalled non-null native array
is taken from the runtime length field when the container is a
growable array — this overrides any fixed size carried on the
descriptor (the `fixed` below is arbitrary); otherwise it is the
descriptor's fixed size; and for zero-terminated arrays scanning
truncates the count at the first null element.  Each part produces the
table with exactly that many entries. -/
theorem c6_count_sources_amended :
    (∀ (env : Env) (w : World) (n : Nat) (fixed : Int) (rlen : Nat) (ints : List Int),
      List.lookup n env.gmem = some ⟨rlen, ⟨4, ints.map .vInt⟩⟩ →
      rlen ≤ ints.length →
      lgi_array_to_lua env w .garray fixed false (.simple .int32) .nothing
        (.vPtr (.native n)) =
        .ok (w, [.table ((List.range rlen).map
          (fun k => (k + 1, .integer (ints.getD k 0))))])) ∧
    (∀ (env : Env) (w : World) (n m : Nat) (ints : List Int),
      List.lookup n env.cmem = some ⟨4, ints.map .vInt⟩ →
      m ≤ ints.length →
      lgi_array_to_lua env w .c (Int.ofNat m) false (.simple .int32) .nothing
        (.vPtr (.native n)) =
        .ok (w, [.table ((List.range m).map
          (fun k => (k + 1, .integer (ints.getD k 0))))])) ∧
    (∀ (env : Env) (w : World) (n : Nat) (ss : List String) (rest : List GArgVal),
      List.lookup n env.cmem =
        some ⟨8, ss.map (fun s => .vPtr (.luaStr s)) ++ .vPtr .null :: rest⟩ →
      lgi_array_to_lua env w .c (-1) true (.simple .utf8) .nothing
        (.vPtr (.native n)) =
        .ok (w, [.table ((List.range ss.length).map
          (fun k => (k + 1, .str (ss.getD k ""))))])) := by
  refine ⟨?_, ?_, ?_⟩
  · intro env w n fixed rlen ints hg hlen
    unfold lgi_array_to_lua lgi_array_to_lua_core
    simp only [GArgVal.asPointer, exceptBind_ok, readGArrayLen, hg, if_pos rfl, if_true,
      exceptBind_pure, if_neg (by simp : ¬ (Addr.native n = Addr.null)),
      if_neg (by decide : ¬ (GITransfer.nothing = GITransfer.everything)),
      if_neg (by simp : ¬ (GITransfer.nothing ≠ GITransfer.nothing))]
    have hread : ∀ j, 0 ≤ j → j < 0 + rlen →
        ∃ e, (fun idx =>
            match blockOf env GIArrayType.garray (Addr.native n) with
            | some b => b.readAt (idx * lgi_type_get_size (TypeInfo.simple ScalarTag.int32))
            | none => none) j = some e ∧
          ∀ w0, (fun w2 v2 => lgi_val_to_lua env w2 (TypeInfo.simple ScalarTag.int32)
              GITransfer.nothing v2) w0 e =
            .ok (w0, [(fun j => LuaValue.integer (ints.getD j 0)) j]) := by
      intro j _ hj
      have hjl : j < ints.length := by omega
      refine ⟨.vInt (ints.getD j 0), ?_, fun w0 => rfl⟩
      have hdiv : j * 4 / 4 = j := by omega
      have hmod : j * 4 % 4 = 0 := by omega
      cases hx : ints[j]? with
      | none =>
        exfalso
        rw [List.getElem?_eq_none_iff] at hx
        omega
      | some v =>
        simp [blockOf, hg, MemBlock.readAt, lgi_type_get_size, scalarSize, hdiv, hmod,
          List.getElem?_map, hx]
    have hfuel : rlen ≤ arrayLoopFuel env GIArrayType.garray (Addr.native n) (Int.ofNat rlen) := by
      simp only [arrayLoopFuel, show (Int.ofNat rlen).toNat = rlen from rfl]
      omega
    have hloop := arrayLoop_count
      (fun w2 v2 => lgi_val_to_lua env w2 (TypeInfo.simple ScalarTag.int32) GITransfer.nothing v2)
      (fun idx =>
        match blockOf env GIArrayType.garray (Addr.native n) with
        | some b => b.readAt (idx * lgi_type_get_size (TypeInfo.simple ScalarTag.int32))
        | none => none)
      (fun j => LuaValue.integer (ints.getD j 0))
      rlen 0 (arrayLoopFuel env GIArrayType.garray (Addr.native n) (Int.ofNat rlen)) w []
      hfuel hread (by simp)
    simp only [Nat.zero_add] at hloop
    rw [hloop]
    simp only [List.nil_append]
    rfl
  · intro env w n m ints hc hlen
    unfold lgi_array_to_lua lgi_array_to_lua_core
    simp only [GArgVal.asPointer, exceptBind_ok, exceptBind_pure,
      if_neg (by decide : ¬ (GIArrayType.c = GIArrayType.garray)),
      if_neg (by simp : ¬ (Addr.native n = Addr.null)),
      if_neg (by decide : ¬ (GITransfer.nothing = GITransfer.everything)),
      if_neg (by simp : ¬ (GITransfer.nothing ≠ GITransfer.nothing))]
    have hread : ∀ j, 0 ≤ j → j < 0 + m →
        ∃ e, (fun idx =>
            match blockOf env GIArrayType.c (Addr.native n) with
            | some b => b.readAt (idx * lgi_type_get_size (TypeInfo.simple ScalarTag.int32))
            | none => none) j = some e ∧
          ∀ w0, (fun w2 v2 => lgi_val_to_lua env w2 (TypeInfo.simple ScalarTag.int32)
              GITransfer.nothing v2) w0 e =
            .ok (w0, [(fun j => LuaValue.integer (ints.getD j 0)) j]) := by
      intro j _ hj
      have hjl : j < ints.length := by omega
      refine ⟨.vInt (ints.getD j 0), ?_, fun w0 => rfl⟩
      have hdiv : j * 4 / 4 = j := by omega
      have hmod : j * 4 % 4 = 0 := by omega
      cases hx : ints[j]? with
      | none =>
        exfalso
        rw [List.getElem?_eq_none_iff] at hx
        omega
      | some v =>
        simp [blockOf, hc, MemBlock.readAt, lgi_type_get_size, scalarSize, hdiv, hmod,
          List.getElem?_map, hx]
    have hfuel : m ≤ arrayLoopFuel env GIArrayType.c (Addr.native n) (Int.ofNat m) := by
      simp only [arrayLoopFuel, show (Int.ofNat m).toNat = m from rfl]
      omega
    have hloop := arrayLoop_count
      (fun w2 v2 => lgi_val_to_lua env w2 (TypeInfo.simple ScalarTag.int32) GITransfer.nothing v2)
      (fun idx =>
        match blockOf env GIArrayType.c (Addr.native n) with
        | some b => b.readAt (idx * lgi_type_get_size (TypeInfo.simple ScalarTag.int32))
        | none => none)
      (fun j => LuaValue.integer (ints.getD j 0))
      m 0 (arrayLoopFuel env GIArrayType.c (Addr.native n) (Int.ofNat m)) w []
      hfuel hread (by simp)
    simp only [Nat.zero_add] at hloop
    rw [hloop]
    simp only [List.nil_append]
    rfl
  · intro env w n ss rest hc
    unfold lgi_array_to_lua lgi_array_to_lua_core
    simp only [GArgVal.asPointer, exceptBind_ok, exceptBind_pure,
      if_neg (by decide : ¬ (GIArrayType.c = GIArrayType.garray)),
      if_neg (by simp : ¬ (Addr.native n = Addr.null)),
      if_neg (by decide : ¬ (GITransfer.nothing = GITransfer.everything)),
      if_neg (by simp : ¬ (GITransfer.nothing ≠ GITransfer.nothing))]
    have hread : ∀ j, 0 ≤ j → j < 0 + ss.length →
        ∃ a, (fun idx =>
            match blockOf env GIArrayType.c (Addr.native n) with
            | some b => b.readAt (idx * lgi_type_get_size (TypeInfo.simple ScalarTag.utf8))
            | none => none) j = some (.vPtr a) ∧ a ≠ .null ∧
          ∀ w0, (fun w2 v2 => lgi_val_to_lua env w2 (TypeInfo.simple ScalarTag.utf8)
              GITransfer.nothing v2) w0 (.vPtr a) =
            .ok (w0, [(fun j => LuaValue.str (ss.getD j "")) j]) := by
      intro j _ hj
      have hjl : j < ss.length := by omega
      refine ⟨.luaStr (ss.getD j ""), ?_, by simp, fun w0 => rfl⟩
      have hdiv : j * 8 / 8 = j := by omega
      have hmod : j * 8 % 8 = 0 := by omega
      cases hx : ss[j]? with
      | none =>
        exfalso
        rw [List.getElem?_eq_none_iff] at hx
        omega
      | some v =>
        have happ : (ss.map (fun s => GArgVal.vPtr (.luaStr s)) ++
            GArgVal.vPtr Addr.null :: rest)[j]? =
            (ss.map (fun s => GArgVal.vPtr (.luaStr s)))[j]? :=
          List.getElem?_append_left (by simpa using hjl)
        simp [blockOf, hc, MemBlock.readAt, lgi_type_get_size, scalarSize, hdiv, hmod,
          happ, List.getElem?_map, hx]
    have hnull : (fun idx =>
        match blockOf env GIArrayType.c (Addr.native n) with
        | some b => b.readAt (idx * lgi_type_get_size (TypeInfo.simple ScalarTag.utf8))
        | none => none) (0 + ss.length) = some (.vPtr .null) := by
      have hdiv : ss.length * 8 / 8 = ss.length := by omega
      have hmod : ss.length * 8 % 8 = 0 := by omega
      have happ : (ss.map (fun s => GArgVal.vPtr (.luaStr s)) ++
          GArgVal.vPtr Addr.null :: rest)[ss.length]? = some (GArgVal.vPtr Addr.null) := by
        rw [List.getElem?_append_right (by simp)]
        simp
      simp [blockOf, hc, MemBlock.readAt, lgi_type_get_size, scalarSize, hdiv, hmod, happ]
    have hfuel : ss.length < arrayLoopFuel env GIArrayType.c (Addr.native n) (-1) := by
      simp only [arrayLoopFuel, blockOf, hc]
      simp only [Option.map_some, List.length_append, List.length_map, List.length_cons]
      calc ss.length ≤ ss.length + (rest.length + 1) := Nat.le_add_right _ _
        _ ≤ (ss.length + (rest.length + 1)) * 8 := Nat.le_mul_of_pos_right _ (by decide)
        _ < max ((-1 : Int)).toNat ((ss.length + (rest.length + 1)) * 8 + 1) + 2 := by
            have := Nat.le_max_right ((-1 : Int)).toNat
              ((ss.length + (rest.length + 1)) * 8 + 1)
            omega
    have hloop := arrayLoop_zt_scan
      (fun w2 v2 => lgi_val_to_lua env w2 (TypeInfo.simple ScalarTag.utf8) GITransfer.nothing v2)
      (fun idx =>
        match blockOf env GIArrayType.c (Addr.native n) with
        | some b => b.readAt (idx * lgi_type_get_size (TypeInfo.simple ScalarTag.utf8))
        | none => none)
      (-1) (fun j => LuaValue.str (ss.getD j "")) (by decide)
      ss.length 0 (arrayLoopFuel env GIArrayType.c (Addr.native n) (-1)) w []
      hfuel hread hnull (by simp)
    simp only [Nat.zero_add] at hloop
    rw [hloop]
    simp only [List.nil_append]
    rfl

/-- Witness for C6 amended: a growable array with runtime length 2 and
backing elements `[5, 6, 9]` marshals to exactly two entries even
though the descriptor carries fixed size 7. -/
theorem c6_count_sources_amended_witness :
    lgi_array_to_lua envC6w World.init .garray 7 false (.simple .int32) .nothing
      (.vPtr (.native 1)) =
      .ok (World.init, [.table [(1, .integer 5), (2, .integer 6)]]) :=
  c6_count_sources_amended.1 envC6w World.init 1 7 2 [5, 6, 9] rfl (by decide)
